import Mathlib

/-!
Verification of poetry's `self update` command
(`src/poetry/console/commands/self/update.py`), shallowly embedded in Lean.

The embedding models:
* release selection (`SelfUpdateCommand.handle`, lines 87-129): sorting the
  candidate packages with the `cmp_to_key` comparator and scanning for the
  first candidate that passes the prerelease filter;
* the fetch pipeline (`SelfUpdateCommand._update`, lines 167-235): checksum
  request, archive request, Content-Length read, streaming to a temporary
  file while hashing, digest comparison, and tar extraction into `self.lib`;
* the swap/rollback sequence (`SelfUpdateCommand.update`, lines 131-157):
  stale-backup removal, backup copy, live-tree removal, `_update`, the
  `except` restoration branch and the `finally` backup cleanup, then
  `make_bin`;
* launcher generation (`make_bin`, `_which_python`, lines 261-324);
* the installation precondition (`_check_recommended_installation`,
  lines 240-252).

Filesystem state is explicit (`FS`), and every run also produces a trace of
operations (`Op`) so that ordering and frame properties can be stated.
Machine-level hashing (`hashlib.sha256`) is abstracted as a parameter
`hash : List Nat → String` (hex digest of the streamed bytes); all claims
are proved for every such function or refuted with a concrete one.
-/

namespace PoetryUpdate

/-- A release candidate as returned by `PyPiRepository.find_packages`:
its version (modelled as a `Nat`; only the order and equality of versions
are used by `handle`) and its prerelease flag (`package.is_prerelease()`). -/
structure Package where
  version : Nat
  isPrerelease : Bool
deriving DecidableEq

/-- The order the comparator of `handle` (lines 99-105) sorts by:
`0 if x.version == y.version else int(x.version < y.version or -1)`
returns `1` when `x.version < y.version` and `-1` when `x.version >
y.version`, so `x` is placed no later than `y` exactly when
`y.version ≤ x.version` (descending order, ties kept in input order). -/
def versionGE (x y : Package) : Prop := y.version ≤ x.version

instance : DecidableRel versionGE := fun x y => Nat.decLe y.version x.version

instance : IsTotal Package versionGE := ⟨fun a b => Nat.le_total b.version a.version⟩

instance : IsTrans Package versionGE := ⟨fun _ _ _ h1 h2 => Nat.le_trans h2 h1⟩

/-- The sort of `handle` (lines 99-105).  Python's `list.sort` is stable;
any stable sort for the same total preorder produces the same list, so it
is modelled by the stable `List.insertionSort` under `versionGE`. -/
def sortPackages (ps : List Package) : List Package :=
  ps.insertionSort versionGE

/-- The selection scan of `handle` (lines 107-119): walk the sorted list;
a prerelease is taken only when `--preview` is set (and then the scan
stops), otherwise skipped; the first non-prerelease is taken. -/
def pickRelease (preview : Bool) : List Package → Option Package
  | [] => none
  | p :: ps =>
    if p.isPrerelease then
      if preview then some p else pickRelease preview ps
    else
      some p

/-- Outcome of the selection part of `handle` (lines 95-129). -/
inductive SelectOutcome where
  | noReleaseFound
  | noNewRelease
  | alreadyCurrent
  | selected (p : Package)
deriving DecidableEq

/-- The selection logic of `handle`: empty candidate set prints
"No release found for the specified version" (line 96); a scan that finds
nothing prints "No new release found" (line 122); a winner whose version
equals the running version prints "You are using the latest version"
(line 126); otherwise `update(release)` is invoked with the winner. -/
def handleSelect (preview : Bool) (currentVersion : Nat)
    (packages : List Package) : SelectOutcome :=
  if packages.isEmpty then
    SelectOutcome.noReleaseFound
  else
    match pickRelease preview (sortPackages packages) with
    | none => SelectOutcome.noNewRelease
    | some r =>
      if r.version = currentVersion then SelectOutcome.alreadyCurrent
      else SelectOutcome.selected r

/-- A package qualifies for selection when it is stable or `--preview`
is set: this is exactly the condition under which the scan of lines
107-119 stops at it. -/
def qualifies (preview : Bool) (p : Package) : Bool :=
  !p.isPrerelease || preview

/-- An entry of the library tree (a file extracted from the tar archive). -/
abbrev Entry := Nat

/-- Contents of a directory tree, as the ordered list of its entries. -/
abbrev Tree := List Entry

/-- The on-disk state the command touches, under `home`:
`lib` (live library tree), `backup` (`lib-backup`), the temporary
download directory created by `temporary_directory` (`tmpArchive` holds
the bytes written to the `.tar.gz` file there), and the `bin` directory
(`binDirMade`, the `poetry` script, its executable bit, and the Windows
`poetry.bat`).  `none` means the directory/file does not exist. -/
structure FS where
  lib : Option Tree
  backup : Option Tree
  tmpArchive : Option (List Nat)
  binDirMade : Bool
  binPoetry : Option String
  binPoetryExec : Bool
  binBat : Option String
deriving DecidableEq

/-- Operations performed by a run, recorded in order.  Filesystem
mutations carry the data involved; network requests and the progress bar
are recorded so frame claims can speak about them. -/
inductive Op where
  | netFindPackages
  | netGetChecksum
  | netGetArchive
  | barStart (size : Nat)
  | tmpWrite (bytes : List Nat)
  | tmpRemove
  | rmBackup
  | backupCopy (t : Tree)
  | rmLib
  | extract (written : List Entry)
  | restoreCopy (t : Tree)
  | mkBinDir
  | binBatWrite (content : String)
  | binPoetryWrite (content : String)
  | binChmod
deriving DecidableEq

/-- Errors surfaced by `update`/`_update`.  `checksumMissing` and
`archiveMissing` are the `RuntimeError("Could not find ... file")` raised
on HTTP 404 (lines 179-180, 191-192); `transport` is any other re-raised
`HTTPError`; `contentLengthTypeError` is the `TypeError` from
`int(meta["Content-Length"])` when the header is absent (line 197);
`hashMismatch` is the `RuntimeError` of lines 223-228; `archiveCorrupt`
is any exception from gzip/tar extraction; `copyDstExists` is the
`FileExistsError` `shutil.copytree` raises when its destination already
exists. -/
inductive UErr where
  | checksumMissing
  | archiveMissing
  | transport
  | contentLengthTypeError
  | hashMismatch
  | archiveCorrupt
  | copyDstExists
deriving DecidableEq

instance : DecidableEq (Except UErr Unit) := fun a b =>
  match a, b with
  | Except.ok (), Except.ok () => isTrue rfl
  | Except.error e1, Except.error e2 =>
    if h : e1 = e2 then isTrue (by rw [h])
    else isFalse (fun hh => h (by cases hh; rfl))
  | Except.ok _, Except.error _ => isFalse (fun hh => by cases hh)
  | Except.error _, Except.ok _ => isFalse (fun hh => by cases hh)

/-- Python's `str.strip()` with no argument (used on the checksum body,
line 184, and on the probed version output, line 311): drop leading and
trailing whitespace. -/
def pyStrip (s : String) : String :=
  String.mk
    ((((s.data.dropWhile Char.isWhitespace).reverse).dropWhile
        Char.isWhitespace).reverse)

/-- Outcome of an HTTP GET: a 404 (`HTTPError` with `code == 404`),
another `HTTPError`, or a successful response. -/
inductive HttpResp (α : Type) where
  | notFound
  | otherError
  | ok (body : α)

/-- How the gzip/tar extraction of lines 230-235 behaves on this archive:
it succeeds, it fails before creating anything under the destination
(e.g. `GzipFile`/`TarFile` reject the header), or it fails after having
extracted the first `k` members into the destination. -/
inductive ExtractOutcome where
  | ok
  | failEarly
  | failAfter (k : Nat)

/-- The archive response: the `Content-Length` header (absent when
`none`), the successive chunks `r.read(block_size)` returns, the tree the
tar archive holds, and how extraction of it behaves. -/
structure Archive where
  contentLength : Option Nat
  chunks : List (List Nat)
  entries : List Entry
  extractOutcome : ExtractOutcome

/-- The network environment one run of `_update` sees: the response to
the `.sha256sum` request and the response to the `.tar.gz` request. -/
structure NetEnv where
  checksumResp : HttpResp String
  archiveResp : HttpResp Archive

/-- Modelled from the spec: `poetry.utils.helpers.temporary_directory`
(imported at line 168 but not part of src/) yields a fresh private
directory and, per the spec's "discard the temporary file" / "private
temporary path", removes it whenever the `with` block of lines 206-235
exits, normally or by exception.  On `FS` that exit is the transition
clearing `tmpArchive`. -/
def tmpDirCleanup (fs : FS) : FS := { fs with tmpArchive := none }

/-- `SelfUpdateCommand._update` (lines 167-235), given the digest
function `hash` (the hex digest `hashlib.sha256` computes over the
streamed bytes).  Steps, in source order: GET the checksum file (404 →
`RuntimeError`, other `HTTPError` re-raised), `strip()` the body; GET the
archive (same mapping); read `Content-Length` (`int(None)` raises when
absent); start the progress bar; inside `temporary_directory` write the
chunks to a temp file while hashing; compare checksum and digest by
`!=` (exact string inequality) and raise on mismatch; only then extract
the tar into `self.lib` (merging into whatever exists there).  Leaving
the `with` block — normally or by exception — removes the temporary
directory. -/
def fetchUpdate (hash : List Nat → String) (env : NetEnv) (fs : FS) :
    Except UErr Unit × FS × List Op :=
  match env.checksumResp with
  | HttpResp.notFound => (Except.error UErr.checksumMissing, fs, [Op.netGetChecksum])
  | HttpResp.otherError => (Except.error UErr.transport, fs, [Op.netGetChecksum])
  | HttpResp.ok body =>
    let checksum := pyStrip body
    match env.archiveResp with
    | HttpResp.notFound =>
      (Except.error UErr.archiveMissing, fs, [Op.netGetChecksum, Op.netGetArchive])
    | HttpResp.otherError =>
      (Except.error UErr.transport, fs, [Op.netGetChecksum, Op.netGetArchive])
    | HttpResp.ok ar =>
      match ar.contentLength with
      | none =>
        (Except.error UErr.contentLengthTypeError, fs,
          [Op.netGetChecksum, Op.netGetArchive])
      | some size =>
        let bytes := ar.chunks.flatten
        let fs1 : FS := { fs with tmpArchive := some bytes }
        let tr1 : List Op :=
          [Op.netGetChecksum, Op.netGetArchive, Op.barStart size,
            Op.tmpWrite bytes]
        if checksum ≠ hash bytes then
          (Except.error UErr.hashMismatch, tmpDirCleanup fs1,
            tr1 ++ [Op.tmpRemove])
        else
          match ar.extractOutcome with
          | ExtractOutcome.ok =>
            (Except.ok (),
              tmpDirCleanup
                { fs1 with lib := some ((fs1.lib.getD []) ++ ar.entries) },
              tr1 ++ [Op.extract ar.entries, Op.tmpRemove])
          | ExtractOutcome.failEarly =>
            (Except.error UErr.archiveCorrupt, tmpDirCleanup fs1,
              tr1 ++ [Op.tmpRemove])
          | ExtractOutcome.failAfter k =>
            (Except.error UErr.archiveCorrupt,
              tmpDirCleanup
                { fs1 with
                    lib := some ((fs1.lib.getD []) ++ ar.entries.take k) },
              tr1 ++ [Op.extract (ar.entries.take k), Op.tmpRemove])

/-- Leading run of decimal digits of a character list, and the rest:
the greedy `\d+` of the version regex. -/
def takeDigits : List Char → List Char × List Char
  | [] => ([], [])
  | c :: cs =>
    if c.isDigit then
      let (ds, rest) := takeDigits cs
      (c :: ds, rest)
    else
      ([], c :: cs)

/-- Decimal value of a digit run (`int(...)` over a regex group). -/
def digitsToNat (ds : List Char) : Nat :=
  ds.foldl (fun n c => 10 * n + (c.toNat - 48)) 0

/-- The regex of `_which_python` (line 301),
`^Python (?P<major>\d+)\.(?P<minor>\d+)\..+$`, applied with `re.match` to
the stripped output: literal `Python `, a digit run, a dot, a digit run,
a dot, then at least one character with `.` never matching a newline.
Returns the `(major, minor)` groups converted with `int`. -/
def parsePyVersion (s : String) : Option (Nat × Nat) :=
  let cs := s.data
  if cs.take 7 = ['P', 'y', 't', 'h', 'o', 'n', ' '] then
    let (maj, r1) := takeDigits (cs.drop 7)
    if maj.isEmpty then none
    else
      match r1 with
      | '.' :: r2 =>
        let (minr, r3) := takeDigits r2
        if minr.isEmpty then none
        else
          match r3 with
          | '.' :: r4 =>
            if r4.isEmpty || r4.contains '\n' then none
            else some (digitsToNat maj, digitsToNat minr)
          | _ => none
      | _ => none
  else none

/-- The candidate list of `_which_python` (lines 296-298): `python` then
`python3`, extended on Windows with the `py.exe` launchers. -/
def allowedExecutables (windows : Bool) : List String :=
  ["python", "python3"] ++ (if windows then ["py.exe -3", "py.exe -2"] else [])

/-- Python's tuple comparison `(major, minor) >= (3, 0)` of line 312. -/
def pyTupleGE3 (major minor : Nat) : Bool :=
  decide (3 < major) || (decide (major = 3) && decide (0 ≤ minor))

/-- The probe loop of `_which_python` (lines 303-318).  `probe e` is the
outcome of `subprocess.check_output(e + " --version", shell=True)`:
`none` for a `CalledProcessError` (candidate skipped), `some out` for its
decoded output.  A candidate whose stripped output matches the regex with
`(major, minor) >= (3, 0)` is returned immediately; otherwise the first
successfully-run candidate is remembered as the fallback; an empty
fallback defaults to `"python"` (lines 320-322). -/
def whichPythonLoop (probe : String → Option String) :
    List String → Option String → String
  | [], fallback => fallback.getD "python"
  | e :: es, fallback =>
    match probe e with
    | none => whichPythonLoop probe es fallback
    | some out =>
      match parsePyVersion (pyStrip out) with
      | some (major, minor) =>
        if pyTupleGE3 major minor then e
        else whichPythonLoop probe es (some (fallback.getD e))
      | none => whichPythonLoop probe es (some (fallback.getD e))

/-- `SelfUpdateCommand._which_python` (lines 290-324). -/
def whichPython (windows : Bool) (probe : String → Option String) : String :=
  whichPythonLoop probe (allowedExecutables windows) none

/-- Whether a candidate's version query ran without `CalledProcessError`. -/
def probeRan (probe : String → Option String) (e : String) : Bool :=
  (probe e).isSome

/-- Whether a candidate's stripped output parses under the version regex
with major version at least 3. -/
def probeQualifies (probe : String → Option String) (e : String) : Bool :=
  match probe e with
  | none => false
  | some out =>
    match parsePyVersion (pyStrip out) with
    | some (major, _) => decide (3 ≤ major)
    | none => false

/-- The spec's description of interpreter resolution, stated as written
(refinement target for `whichPython`): the first candidate reporting
major version ≥ 3 wins; else the first candidate that ran at all; else
the fixed default name `"python"`. -/
def whichPythonSpec (windows : Bool) (probe : String → Option String) : String :=
  match (allowedExecutables windows).find? (probeQualifies probe) with
  | some e => e
  | none =>
    match (allowedExecutables windows).find? (probeRan probe) with
    | some e => e
    | none => "python"

/-- The `BIN` bootstrap script template of lines 29-45. -/
def BIN : String :=
  "# -*- coding: utf-8 -*-\nimport glob\nimport sys\nimport os\n\nlib = os.path.normpath(os.path.join(os.path.realpath(__file__), \"../..\", \"lib\"))\nvendors = os.path.join(lib, \"poetry\", \"_vendor\")\ncurrent_vendors = os.path.join(\n    vendors, \"py\x7b\x7d\".format(\".\".join(str(v) for v in sys.version_info[:2]))\n)\nsys.path.insert(0, lib)\nsys.path.insert(0, current_vendors)\n\nif __name__ == \"__main__\":\n    from poetry.console import main\n    main()\n"

/-- The `BAT` template of line 47, with the two `str.format` fields
substituted. -/
def BAT (pythonExecutable poetryBin : String) : String :=
  "@echo off\r\n" ++ pythonExecutable ++ " \"" ++ poetryBin ++ "\" %*\r\n"

/-- The host-dependent inputs of `make_bin`: the `WINDOWS` flag, the
subprocess probe used by `_which_python`, and (for the `.bat` wrapper)
`os.environ["USERPROFILE"]` and `str(self.bin / "poetry")`. -/
structure BinEnv where
  windows : Bool
  probe : String → Option String
  userProfile : String
  poetryBinPath : String

/-- `SelfUpdateCommand.make_bin` (lines 261-288): create the `bin`
directory, resolve the interpreter, on Windows write `poetry.bat` (with
the user-profile substitution of lines 273-275), write the `poetry`
script (`BIN`, prefixed on POSIX with a shebang for the resolved
interpreter), and on POSIX set its executable bit. -/
def makeBin (benv : BinEnv) (fs : FS) : FS × List Op :=
  let fs0 : FS := { fs with binDirMade := true }
  let py := whichPython benv.windows benv.probe
  let (fs1, tr1) :=
    if benv.windows then
      let bat := BAT py (benv.poetryBinPath.replace benv.userProfile "%USERPROFILE%")
      (({ fs0 with binBat := some bat } : FS), [Op.binBatWrite bat])
    else
      (fs0, [])
  let content := if benv.windows then BIN else "#!/usr/bin/env " ++ py ++ "\n" ++ BIN
  let fs2 : FS := { fs1 with binPoetry := some content }
  let (fs3, tr3) :=
    if benv.windows then (fs2, ([] : List Op))
    else (({ fs2 with binPoetryExec := true } : FS), [Op.binChmod])
  (fs3, [Op.mkBinDir] ++ tr1 ++ [Op.binPoetryWrite content] ++ tr3)

/-- `SelfUpdateCommand.update` (lines 131-157).  In source order: remove
a stale `lib-backup` if present (135-136); if `lib` exists, copy it to
`lib-backup` and then remove `lib` (139-141); run `_update` (144); on an
exception, re-raise if no backup exists (146-147), otherwise
`copytree(lib_backup, lib)` — which raises `FileExistsError` whenever
`lib` already exists (e.g. partially extracted) — then remove the backup
and re-raise (149-152); the `finally` block removes `lib-backup`
whenever it still exists (153-155); on success run `make_bin` (157). -/
def updateRun (hash : List Nat → String) (env : NetEnv) (benv : BinEnv)
    (fs0 : FS) : Except UErr Unit × FS × List Op :=
  let (fsA, trA) :=
    match fs0.backup with
    | some _ => (({ fs0 with backup := none } : FS), [Op.rmBackup])
    | none => (fs0, [])
  let (fsB, trB) :=
    match fsA.lib with
    | some t =>
      (({ fsA with backup := some t, lib := none } : FS),
        [Op.backupCopy t, Op.rmLib])
    | none => (fsA, ([] : List Op))
  let (res, fsC, trC) := fetchUpdate hash env fsB
  match res with
  | Except.ok _ =>
    let (fsD, trD) :=
      match fsC.backup with
      | some _ => (({ fsC with backup := none } : FS), [Op.rmBackup])
      | none => (fsC, ([] : List Op))
    let (fsE, trE) := makeBin benv fsD
    (Except.ok (), fsE, trA ++ trB ++ trC ++ trD ++ trE)
  | Except.error e =>
    match fsC.backup with
    | none => (Except.error e, fsC, trA ++ trB ++ trC)
    | some t =>
      match fsC.lib with
      | some _ =>
        (Except.error UErr.copyDstExists, ({ fsC with backup := none } : FS),
          trA ++ trB ++ trC ++ [Op.rmBackup])
      | none =>
        (Except.error e,
          ({ fsC with lib := some t, backup := none } : FS),
          trA ++ trB ++ trC ++ [Op.restoreCopy t, Op.rmBackup])

/-- `_check_recommended_installation` (lines 240-252):
`Path(__file__).relative_to(self.home)` succeeds exactly when the home
directory's path segments are a prefix of the running file's segments. -/
def checkRecommendedInstallation (homePath filePath : List String) : Bool :=
  homePath.isPrefixOf filePath

/-- The final result of `handle`. -/
inductive RunResult where
  | unsupportedInstallation
  | noReleaseFound
  | noNewRelease
  | alreadyCurrent
  | updated (v : Nat)
  | updateFailed (e : UErr)
deriving DecidableEq

/-- The inputs of `handle`: the path segments of `self.home` and of
`Path(__file__)`, the `--preview` flag, the running version, and the
candidate packages `repo.find_packages` returns for the constraint. -/
structure CmdEnv where
  homePath : List String
  filePath : List String
  preview : Bool
  currentVersion : Nat
  packages : List Package

/-- `handle` after `_check_recommended_installation` has passed (lines
87-129): query the package repository over the network, select a release,
and either report (`No release found` / `No new release found` /
`You are using the latest version`) or run `update` on the winner. -/
def handleAfterCheck (hash : List Nat → String) (cmd : CmdEnv) (env : NetEnv)
    (benv : BinEnv) (fs : FS) : RunResult × FS × List Op :=
  match handleSelect cmd.preview cmd.currentVersion cmd.packages with
  | SelectOutcome.noReleaseFound => (RunResult.noReleaseFound, fs, [Op.netFindPackages])
  | SelectOutcome.noNewRelease => (RunResult.noNewRelease, fs, [Op.netFindPackages])
  | SelectOutcome.alreadyCurrent => (RunResult.alreadyCurrent, fs, [Op.netFindPackages])
  | SelectOutcome.selected r =>
    let (res, fs1, tr) := updateRun hash env benv fs
    (match res with
      | Except.ok _ => RunResult.updated r.version
      | Except.error e => RunResult.updateFailed e,
      fs1, Op.netFindPackages :: tr)

/-- `SelfUpdateCommand.handle` (lines 79-129): the installation check
runs first and raises `PoetrySimpleConsoleException` before any network
request or filesystem operation when the running file is not under
`home`; otherwise the command proceeds. -/
def handleRun (hash : List Nat → String) (cmd : CmdEnv) (env : NetEnv)
    (benv : BinEnv) (fs : FS) : RunResult × FS × List Op :=
  if checkRecommendedInstallation cmd.homePath cmd.filePath then
    handleAfterCheck hash cmd env benv fs
  else
    (RunResult.unsupportedInstallation, fs, [])

/-- Whether an operation creates, modifies or removes state of the
installation itself — under `lib`, `lib-backup` or `bin` — as opposed to
network traffic, progress reporting, and the private temporary
download directory. -/
def opTouchesInstall : Op → Bool
  | Op.rmBackup => true
  | Op.backupCopy _ => true
  | Op.rmLib => true
  | Op.extract _ => true
  | Op.restoreCopy _ => true
  | Op.mkBinDir => true
  | Op.binBatWrite _ => true
  | Op.binPoetryWrite _ => true
  | Op.binChmod => true
  | _ => false

/-- Whether an operation creates or modifies anything under `bin`. -/
def opTouchesBin : Op → Bool
  | Op.mkBinDir => true
  | Op.binBatWrite _ => true
  | Op.binPoetryWrite _ => true
  | Op.binChmod => true
  | _ => false

/-- Trace check for the copy-before-delete discipline: scanning left to
right, every removal of the live library directory must come after a
completed backup copy of the tree `t` (the pre-update live contents).
`seen` records whether such a copy has already finished. -/
def rmLibAfterBackupOf (t : Tree) : List Op → Bool → Bool
  | [], _ => true
  | Op.backupCopy u :: tr, seen => rmLibAfterBackupOf t tr (seen || u == t)
  | Op.rmLib :: tr, seen => seen && rmLibAfterBackupOf t tr seen
  | _ :: tr, seen => rmLibAfterBackupOf t tr seen

/-- ASCII lowering of one character (enough for hex digest strings). -/
def charLower (c : Char) : Char :=
  if c.toNat ≥ 65 ∧ c.toNat ≤ 90 then Char.ofNat (c.toNat + 32) else c

/-- Case-insensitive string comparison, the comparison the spec
prescribes for digests. -/
def eqIgnoreCase (a b : String) : Bool :=
  a.data.map charLower == b.data.map charLower

/-- Example live filesystem: `lib` holds one entry, nothing else. -/
def exFsLive : FS := ⟨some [0], none, none, false, none, false, none⟩

/-- Example empty filesystem (first-ever install). -/
def exFsEmpty : FS := ⟨none, none, none, false, none, false, none⟩

/-- Example digest function: every byte stream digests to `"h"`. -/
def exHash : List Nat → String := fun _ => "h"

/-- Example archive whose extraction fails after writing entry `1` of
the new tree `[1, 2]`. -/
def exArPartial : Archive := ⟨some 1, [[7]], [1, 2], ExtractOutcome.failAfter 1⟩

/-- Example network environment: checksum and archive download succeed,
the digest matches, but extraction stops halfway. -/
def exEnvPartial : NetEnv := ⟨HttpResp.ok "h", HttpResp.ok exArPartial⟩

/-- Example network environment for a fully successful fetch. -/
def exEnvOk : NetEnv :=
  ⟨HttpResp.ok "h", HttpResp.ok ⟨some 1, [[7]], [1, 2], ExtractOutcome.ok⟩⟩

/-- Example POSIX `make_bin` environment where no interpreter probe
succeeds. -/
def exBinEnv : BinEnv := ⟨false, fun _ => none, "", ""⟩

/-- Example command environment: installed under home, no preview,
running version 120, candidates 120 (stable) and 130 (prerelease). -/
def exCmd : CmdEnv :=
  ⟨["home"], ["home", "lib", "u.py"], false, 120, [⟨120, false⟩, ⟨130, true⟩]⟩

/-- Example command environment whose running file is outside home. -/
def exCmdOutside : CmdEnv :=
  ⟨["home"], ["usr", "lib", "u.py"], false, 120, [⟨120, false⟩, ⟨130, true⟩]⟩

/-- Example digest function returning a lower-case hex digest, as
`hashlib.sha256().hexdigest()` always does. -/
def exHashLower : List Nat → String := fun _ => "ab"

/-- The operations lines 135-141 of `update` perform before `_update`:
remove a stale backup if present, then (if `lib` exists) copy `lib` to
`lib-backup` and remove `lib`. -/
def preTrace (fs : FS) : List Op :=
  (match fs.backup with
    | some _ => [Op.rmBackup]
    | none => []) ++
  (match fs.lib with
    | some t => [Op.backupCopy t, Op.rmLib]
    | none => [])

/-- The filesystem state lines 135-141 of `update` leave behind before
`_update` runs: `lib` gone, its previous contents (if any) now at
`lib-backup`, any stale backup removed. -/
def fsPostBackup (fs : FS) : FS :=
  { fs with lib := none, backup := fs.lib }

theorem pickRelease_eq_find? (preview : Bool) (l : List Package) :
    pickRelease preview l = l.find? (qualifies preview) := by
  induction l with
  | nil => rfl
  | cons p ps ih =>
    cases hp : p.isPrerelease <;> cases preview <;>
      simp_all [pickRelease, qualifies, List.find?]

theorem mem_sortPackages {p : Package} {ps : List Package} :
    p ∈ sortPackages ps ↔ p ∈ ps :=
  (List.perm_insertionSort versionGE ps).mem_iff

theorem sorted_sortPackages (ps : List Package) :
    List.Sorted versionGE (sortPackages ps) :=
  List.sorted_insertionSort versionGE ps

theorem find?_version_ge_of_sorted {pr : Bool} {l : List Package} {r : Package}
    (hs : List.Sorted versionGE l)
    (hr : l.find? (qualifies pr) = some r) :
    ∀ q ∈ l, qualifies pr q = true → q.version ≤ r.version := by
  induction l with
  | nil => simp at hr
  | cons a l ih =>
    rw [List.sorted_cons] at hs
    intro q hq hqq
    rcases List.mem_cons.mp hq with hqa | hql
    · subst hqa
      cases ha : qualifies pr q with
      | true =>
        rw [List.find?_cons_of_pos _ ha] at hr
        cases hr
        exact Nat.le_refl _
      | false => rw [ha] at hqq; cases hqq
    · cases ha : qualifies pr a with
      | true =>
        rw [List.find?_cons_of_pos _ ha] at hr
        cases hr
        exact hs.1 q hql
      | false =>
        rw [List.find?_cons_of_neg _ (by simp [ha])] at hr
        exact ih hs.2 hr q hql hqq

/-- C5: with `--preview` unset, the selection of `handle` never chooses
a prerelease — even one ranked highest by version — and when every
candidate is a prerelease the outcome is the normal "No new release
found" report, not an error. -/
theorem selection_never_prerelease_without_preview
    (currentVersion : Nat) (packages : List Package) :
    (∀ r, handleSelect false currentVersion packages = SelectOutcome.selected r →
        r.isPrerelease = false) ∧
    (packages ≠ [] → (∀ p ∈ packages, p.isPrerelease = true) →
        handleSelect false currentVersion packages = SelectOutcome.noNewRelease) := by
  constructor
  · intro r hr
    unfold handleSelect at hr
    by_cases hps : packages.isEmpty
    · simp [hps] at hr
    · simp only [hps, if_false] at hr
      rw [pickRelease_eq_find?] at hr
      cases hfind : (sortPackages packages).find? (qualifies false) with
      | none => rw [hfind] at hr; cases hr
      | some w =>
        rw [hfind] at hr
        have hw := List.find?_some hfind
        by_cases hv : w.version = currentVersion
        · simp [hv] at hr
        · simp only [hv, if_false] at hr
          cases hr
          simpa [qualifies] using hw
  · intro hne hall
    unfold handleSelect
    have hps : packages.isEmpty = false := by
      cases packages
      · exact absurd rfl hne
      · rfl
    simp only [hps, if_false]
    rw [pickRelease_eq_find?]
    have hnone : (sortPackages packages).find? (qualifies false) = none := by
      rw [List.find?_eq_none]
      intro x hx
      have := hall x (mem_sortPackages.mp hx)
      simp [qualifies, this]
    rw [hnone]
    rfl

/-- Witness for C5: a concrete selection that picks the stable 120 over
the prerelease 130, and a concrete all-prerelease candidate set reported
as "No new release found". -/
theorem selection_never_prerelease_witness :
    Package.isPrerelease ⟨120, false⟩ = false ∧
    handleSelect false 110 [⟨120, true⟩, ⟨130, true⟩] =
      SelectOutcome.noNewRelease :=
  ⟨(selection_never_prerelease_without_preview 110
        [⟨120, false⟩, ⟨130, true⟩]).1 ⟨120, false⟩ (by decide),
    (selection_never_prerelease_without_preview 110
        [⟨120, true⟩, ⟨130, true⟩]).2 (by decide) (by decide)⟩

/-- C6: when some candidate qualifies and the highest qualifying version
equals the running version, `handle` stops with the "You are using the
latest version" report: the state is untouched and the only operation
performed is the package query that preceded the determination. -/
theorem already_current_stops_run
    (hash : List Nat → String) (cmd : CmdEnv) (env : NetEnv) (benv : BinEnv)
    (fs : FS) (p : Package)
    (hnest : checkRecommendedInstallation cmd.homePath cmd.filePath = true)
    (hp : p ∈ cmd.packages) (hq : qualifies cmd.preview p = true)
    (hcur : p.version = cmd.currentVersion)
    (hmax : ∀ q ∈ cmd.packages, qualifies cmd.preview q = true →
        q.version ≤ cmd.currentVersion) :
    handleRun hash cmd env benv fs =
      (RunResult.alreadyCurrent, fs, [Op.netFindPackages]) := by
  have hsel : handleSelect cmd.preview cmd.currentVersion cmd.packages =
      SelectOutcome.alreadyCurrent := by
    unfold handleSelect
    have hps : cmd.packages.isEmpty = false := by
      cases hcp : cmd.packages
      · rw [hcp] at hp; cases hp
      · rfl
    simp only [hps, if_false]
    rw [pickRelease_eq_find?]
    have hsome : ((sortPackages cmd.packages).find? (qualifies cmd.preview)).isSome := by
      rw [List.find?_isSome]
      exact ⟨p, mem_sortPackages.mpr hp, hq⟩
    cases hfind : (sortPackages cmd.packages).find? (qualifies cmd.preview) with
    | none => rw [hfind] at hsome; cases hsome
    | some w =>
      have hwq := List.find?_some hfind
      have hwmem := mem_sortPackages.mp (List.mem_of_find?_eq_some hfind)
      have h1 : w.version ≤ cmd.currentVersion := hmax w hwmem hwq
      have h2 : cmd.currentVersion ≤ w.version := by
        have hle := find?_version_ge_of_sorted (sorted_sortPackages cmd.packages)
          hfind p (mem_sortPackages.mpr hp) hq
        omega
      have hw : w.version = cmd.currentVersion := Nat.le_antisymm h1 h2
      simp [hw]
  unfold handleRun
  simp only [hnest, if_true]
  unfold handleAfterCheck
  rw [hsel]

/-- Witness for C6: candidates 120 (stable) and 130 (prerelease) with
`--preview` unset and running version 120. -/
theorem already_current_witness :
    handleRun exHash exCmd exEnvOk exBinEnv exFsLive =
      (RunResult.alreadyCurrent, exFsLive, [Op.netFindPackages]) :=
  already_current_stops_run exHash exCmd exEnvOk exBinEnv exFsLive
    ⟨120, false⟩ (by decide) (by decide) (by decide) (by decide) (by decide)

theorem handleAfterCheck_ne_unsupported
    (hash : List Nat → String) (cmd : CmdEnv) (env : NetEnv) (benv : BinEnv)
    (fs : FS) :
    (handleAfterCheck hash cmd env benv fs).1 ≠
      RunResult.unsupportedInstallation := by
  unfold handleAfterCheck
  cases handleSelect cmd.preview cmd.currentVersion cmd.packages with
  | noReleaseFound => simp
  | noNewRelease => simp
  | alreadyCurrent => simp
  | selected r =>
    rcases h : updateRun hash env benv fs with ⟨res, fs1, tr⟩
    cases res <;> simp

/-- C7: when the running file is not nested under the configured home
directory, `handle` stops at `_check_recommended_installation` with the
unsupported-installation error, with no operation performed and no state
change; when it is nested, the check is transparent and the command
proceeds; and the unsupported error arises only that way. -/
theorem installation_check_gates_run
    (hash : List Nat → String) (cmd : CmdEnv) (env : NetEnv) (benv : BinEnv)
    (fs : FS) :
    (checkRecommendedInstallation cmd.homePath cmd.filePath = false →
        handleRun hash cmd env benv fs =
          (RunResult.unsupportedInstallation, fs, [])) ∧
    (checkRecommendedInstallation cmd.homePath cmd.filePath = true →
        handleRun hash cmd env benv fs = handleAfterCheck hash cmd env benv fs) ∧
    ((handleRun hash cmd env benv fs).1 = RunResult.unsupportedInstallation ↔
        checkRecommendedInstallation cmd.homePath cmd.filePath = false) := by
  refine ⟨?_, ?_, ?_, ?_⟩
  · intro h; unfold handleRun; simp [h]
  · intro h; unfold handleRun; simp [h]
  · intro h
    by_cases hc : checkRecommendedInstallation cmd.homePath cmd.filePath = true
    · exfalso
      unfold handleRun at h
      simp only [hc, if_true] at h
      exact handleAfterCheck_ne_unsupported hash cmd env benv fs h
    · simpa using hc
  · intro h; unfold handleRun; simp [h]

/-- Witness for C7: a file outside home fails fast with nothing done,
and the same command environment relocated under home proceeds past the
check. -/
theorem installation_check_witness :
    handleRun exHash exCmdOutside exEnvOk exBinEnv exFsLive =
      (RunResult.unsupportedInstallation, exFsLive, []) ∧
    handleRun exHash exCmd exEnvOk exBinEnv exFsLive =
      handleAfterCheck exHash exCmd exEnvOk exBinEnv exFsLive :=
  ⟨(installation_check_gates_run exHash exCmdOutside exEnvOk exBinEnv
        exFsLive).1 (by decide),
    (installation_check_gates_run exHash exCmd exEnvOk exBinEnv
        exFsLive).2.1 (by decide)⟩

theorem pyTupleGE3_eq_major_ge (major minor : Nat) :
    pyTupleGE3 major minor = decide (3 ≤ major) := by
  unfold pyTupleGE3
  by_cases h : 3 ≤ major
  · rcases (by omega : 3 < major ∨ major = 3) with h' | h' <;> simp [h, h']
  · have h1 : ¬3 < major := by omega
    have h2 : ¬major = 3 := by omega
    simp [h, h1, h2]

theorem whichPythonLoop_eq_spec (probe : String → Option String)
    (l : List String) (fb : Option String) :
    whichPythonLoop probe l fb =
      (match l.find? (probeQualifies probe) with
      | some e => e
      | none => (fb <|> l.find? (probeRan probe)).getD "python") := by
  induction l generalizing fb with
  | nil => cases fb <;> rfl
  | cons e es ih =>
    cases hpe : probe e with
    | none =>
      have hq : probeQualifies probe e = false := by simp [probeQualifies, hpe]
      have hr : probeRan probe e = false := by simp [probeRan, hpe]
      simp only [whichPythonLoop, hpe, List.find?, hq, hr]
      exact ih fb
    | some out =>
      have hr : probeRan probe e = true := by simp [probeRan, hpe]
      cases hpv : parsePyVersion (pyStrip out) with
      | none =>
        have hq : probeQualifies probe e = false := by
          simp [probeQualifies, hpe, hpv]
        simp only [whichPythonLoop, hpe, hpv, List.find?, hq, hr]
        rw [ih (some (fb.getD e))]
        cases (es.find? (probeQualifies probe)) <;> cases fb <;> rfl
      | some mm =>
        rcases mm with ⟨major, minor⟩
        have hq : probeQualifies probe e = pyTupleGE3 major minor := by
          simp [probeQualifies, hpe, hpv, pyTupleGE3_eq_major_ge]
        cases hge : pyTupleGE3 major minor with
        | true =>
          rw [hge] at hq
          simp [whichPythonLoop, hpe, hpv, hge, List.find?, hq]
        | false =>
          rw [hge] at hq
          simp only [whichPythonLoop, hpe, hpv, hge, List.find?, hq, hr]
          rw [ih (some (fb.getD e))]
          cases (es.find? (probeQualifies probe)) <;> cases fb <;> rfl

/-- C9: `_which_python` returns the first candidate whose version output
reports major version at least 3; failing that, the first candidate that
ran at all; failing that, the fixed default `"python"` — for every
platform flag and every assignment of probe outcomes. -/
theorem which_python_matches_spec (windows : Bool)
    (probe : String → Option String) :
    whichPython windows probe = whichPythonSpec windows probe := by
  unfold whichPython whichPythonSpec
  rw [whichPythonLoop_eq_spec]
  cases (allowedExecutables windows).find? (probeQualifies probe) with
  | some e => rfl
  | none =>
    cases (allowedExecutables windows).find? (probeRan probe) <;> rfl

/-- C2 (counterexample to the claim as stated): an extraction error is a
failure of the fetch pipeline after which the live library directory HAS
been modified — `_update` extracts directly into `self.lib`, not into a
private temporary path.  Concretely: live `lib` absent, download and
digest verification succeed, extraction fails after one entry; the fetch
reports `archiveCorrupt` with `lib` now partially populated. -/
theorem fetch_extraction_error_touches_lib :
    (fetchUpdate exHash ⟨HttpResp.ok "h", HttpResp.ok exArPartial⟩ exFsEmpty).1 =
      Except.error UErr.archiveCorrupt ∧
    (fetchUpdate exHash ⟨HttpResp.ok "h", HttpResp.ok exArPartial⟩
        exFsEmpty).2.1.lib = some [1] ∧
    exFsEmpty.lib = none :=
  ⟨rfl, rfl, rfl⟩

/-- C2 (amended): for every fetch failure arising before extraction —
checksum file missing, archive missing, transport error, absent
Content-Length, or digest mismatch — no file under `lib`, `lib-backup`
or `bin` has been created, modified or removed by the time the failure
is reported, and every operation performed touched only the network, the
progress bar, or the private temporary directory.  Extraction errors are
excluded: extraction writes directly into `lib` (line 233). -/
theorem fetch_failure_before_extraction_frame (hash : List Nat → String)
    (env : NetEnv) (fs : FS) (e : UErr) (res : Except UErr Unit)
    (fs' : FS) (tr : List Op)
    (hout : fetchUpdate hash env fs = (res, fs', tr))
    (herr : res = Except.error e)
    (hkind : e = UErr.checksumMissing ∨ e = UErr.archiveMissing ∨
        e = UErr.transport ∨ e = UErr.contentLengthTypeError ∨
        e = UErr.hashMismatch) :
    fs'.lib = fs.lib ∧ fs'.backup = fs.backup ∧
    fs'.binDirMade = fs.binDirMade ∧ fs'.binPoetry = fs.binPoetry ∧
    fs'.binPoetryExec = fs.binPoetryExec ∧ fs'.binBat = fs.binBat ∧
    (tr.all fun o => !opTouchesInstall o) = true := by
  subst herr
  rcases env with ⟨cs, ar⟩
  cases cs with
  | notFound =>
    simp only [fetchUpdate, Prod.mk.injEq] at hout
    obtain ⟨-, h2, h3⟩ := hout
    subst h2; subst h3
    exact ⟨rfl, rfl, rfl, rfl, rfl, rfl, rfl⟩
  | otherError =>
    simp only [fetchUpdate, Prod.mk.injEq] at hout
    obtain ⟨-, h2, h3⟩ := hout
    subst h2; subst h3
    exact ⟨rfl, rfl, rfl, rfl, rfl, rfl, rfl⟩
  | ok body =>
    cases ar with
    | notFound =>
      simp only [fetchUpdate, Prod.mk.injEq] at hout
      obtain ⟨-, h2, h3⟩ := hout
      subst h2; subst h3
      exact ⟨rfl, rfl, rfl, rfl, rfl, rfl, rfl⟩
    | otherError =>
      simp only [fetchUpdate, Prod.mk.injEq] at hout
      obtain ⟨-, h2, h3⟩ := hout
      subst h2; subst h3
      exact ⟨rfl, rfl, rfl, rfl, rfl, rfl, rfl⟩
    | ok a =>
      rcases a with ⟨cl, chunks, entries, exo⟩
      cases cl with
      | none =>
        simp only [fetchUpdate, Prod.mk.injEq] at hout
        obtain ⟨-, h2, h3⟩ := hout
        subst h2; subst h3
        exact ⟨rfl, rfl, rfl, rfl, rfl, rfl, rfl⟩
      | some size =>
        by_cases hne : pyStrip body ≠ hash chunks.flatten
        · rw [show fetchUpdate hash
              ⟨HttpResp.ok body,
                HttpResp.ok ⟨some size, chunks, entries, exo⟩⟩ fs =
              (Except.error UErr.hashMismatch,
                tmpDirCleanup { fs with tmpArchive := some chunks.flatten },
                [Op.netGetChecksum, Op.netGetArchive, Op.barStart size,
                  Op.tmpWrite chunks.flatten, Op.tmpRemove])
            from by unfold fetchUpdate; dsimp only; rw [if_pos hne]; rfl] at hout
          simp only [Prod.mk.injEq] at hout
          obtain ⟨-, h2, h3⟩ := hout
          subst h2; subst h3
          exact ⟨rfl, rfl, rfl, rfl, rfl, rfl, rfl⟩
        · cases exo with
          | ok =>
            rw [show fetchUpdate hash
                ⟨HttpResp.ok body,
                  HttpResp.ok ⟨some size, chunks, entries, ExtractOutcome.ok⟩⟩
                  fs =
                (Except.ok (),
                  tmpDirCleanup
                    { fs with lib := some ((fs.lib.getD []) ++ entries) },
                  [Op.netGetChecksum, Op.netGetArchive, Op.barStart size,
                    Op.tmpWrite chunks.flatten, Op.extract entries,
                    Op.tmpRemove])
              from by unfold fetchUpdate; dsimp only; rw [if_neg hne]; rfl] at hout
            simp only [Prod.mk.injEq] at hout
            exact absurd hout.1 (by simp)
          | failEarly =>
            rw [show fetchUpdate hash
                ⟨HttpResp.ok body,
                  HttpResp.ok
                    ⟨some size, chunks, entries, ExtractOutcome.failEarly⟩⟩
                  fs =
                (Except.error UErr.archiveCorrupt,
                  tmpDirCleanup { fs with tmpArchive := some chunks.flatten },
                  [Op.netGetChecksum, Op.netGetArchive, Op.barStart size,
                    Op.tmpWrite chunks.flatten, Op.tmpRemove])
              from by unfold fetchUpdate; dsimp only; rw [if_neg hne]; rfl] at hout
            simp only [Prod.mk.injEq] at hout
            have he : UErr.archiveCorrupt = e := by
              have := hout.1
              cases this; rfl
            rcases hkind with h | h | h | h | h <;> rw [← he] at h <;> cases h
          | failAfter k =>
            rw [show fetchUpdate hash
                ⟨HttpResp.ok body,
                  HttpResp.ok
                    ⟨some size, chunks, entries, ExtractOutcome.failAfter k⟩⟩
                  fs =
                (Except.error UErr.archiveCorrupt,
                  tmpDirCleanup
                    { fs with
                        lib := some ((fs.lib.getD []) ++ entries.take k) },
                  [Op.netGetChecksum, Op.netGetArchive, Op.barStart size,
                    Op.tmpWrite chunks.flatten, Op.extract (entries.take k),
                    Op.tmpRemove])
              from by unfold fetchUpdate; dsimp only; rw [if_neg hne]; rfl] at hout
            simp only [Prod.mk.injEq] at hout
            have he : UErr.archiveCorrupt = e := by
              have := hout.1
              cases this; rfl
            rcases hkind with h | h | h | h | h <;> rw [← he] at h <;> cases h

/-- Witness for the amended C2: a digest mismatch leaves the filesystem
frame untouched and performs only network/progress/temporary work. -/
theorem fetch_failure_frame_witness :
    ((fetchUpdate exHash ⟨HttpResp.ok "x", HttpResp.ok exArPartial⟩
        exFsLive).2.1.lib = exFsLive.lib) ∧
    (((fetchUpdate exHash ⟨HttpResp.ok "x", HttpResp.ok exArPartial⟩
        exFsLive).2.2.all fun o => !opTouchesInstall o) = true) := by
  have h := fetch_failure_before_extraction_frame exHash
    ⟨HttpResp.ok "x", HttpResp.ok exArPartial⟩ exFsLive UErr.hashMismatch
    (fetchUpdate exHash ⟨HttpResp.ok "x", HttpResp.ok exArPartial⟩ exFsLive).1
    (fetchUpdate exHash ⟨HttpResp.ok "x", HttpResp.ok exArPartial⟩ exFsLive).2.1
    (fetchUpdate exHash ⟨HttpResp.ok "x", HttpResp.ok exArPartial⟩ exFsLive).2.2
    rfl rfl (by right; right; right; right; rfl)
  exact ⟨h.1, h.2.2.2.2.2.2⟩

theorem fetchUpdate_ok_ok (hash : List Nat → String) (body : String)
    (size : Nat) (chunks : List (List Nat)) (entries : List Entry)
    (exo : ExtractOutcome) (fs : FS) :
    fetchUpdate hash
        ⟨HttpResp.ok body, HttpResp.ok ⟨some size, chunks, entries, exo⟩⟩ fs =
      if pyStrip body ≠ hash chunks.flatten then
        (Except.error UErr.hashMismatch,
          tmpDirCleanup { fs with tmpArchive := some chunks.flatten },
          [Op.netGetChecksum, Op.netGetArchive, Op.barStart size,
            Op.tmpWrite chunks.flatten, Op.tmpRemove])
      else
        match exo with
        | ExtractOutcome.ok =>
          (Except.ok (),
            tmpDirCleanup
              { fs with lib := some ((fs.lib.getD []) ++ entries) },
            [Op.netGetChecksum, Op.netGetArchive, Op.barStart size,
              Op.tmpWrite chunks.flatten, Op.extract entries, Op.tmpRemove])
        | ExtractOutcome.failEarly =>
          (Except.error UErr.archiveCorrupt,
            tmpDirCleanup { fs with tmpArchive := some chunks.flatten },
            [Op.netGetChecksum, Op.netGetArchive, Op.barStart size,
              Op.tmpWrite chunks.flatten, Op.tmpRemove])
        | ExtractOutcome.failAfter k =>
          (Except.error UErr.archiveCorrupt,
            tmpDirCleanup
              { fs with lib := some ((fs.lib.getD []) ++ entries.take k) },
            [Op.netGetChecksum, Op.netGetArchive, Op.barStart size,
              Op.tmpWrite chunks.flatten, Op.extract (entries.take k),
              Op.tmpRemove]) := by
  unfold fetchUpdate
  dsimp only
  by_cases hne : pyStrip body ≠ hash chunks.flatten
  · rw [if_pos hne, if_pos hne]; rfl
  · rw [if_neg hne, if_neg hne]; cases exo <;> rfl

/-- C3 (counterexample to "compared case-insensitively"): a checksum and
a computed digest that are equal ignoring case but differ as strings are
rejected — the comparison `checksum != sha.hexdigest()` of line 223 is
exact string inequality, not case-insensitive.  Here the checksum file
holds "AB" while the digest is "ab". -/
theorem digest_comparison_not_case_insensitive :
    eqIgnoreCase (pyStrip "AB") (exHashLower ([[7]] : List (List Nat)).flatten) = true ∧
    pyStrip "AB" ≠ exHashLower ([[7]] : List (List Nat)).flatten ∧
    (fetchUpdate exHashLower
        ⟨HttpResp.ok "AB",
          HttpResp.ok ⟨some 1, [[7]], [1], ExtractOutcome.ok⟩⟩
        exFsLive).1 = Except.error UErr.hashMismatch :=
  ⟨by decide, by decide, rfl⟩

/-- C3 (amended): after the stream completes the computed digest is
compared to the stripped checksum by exact (case-sensitive) string
equality; for every pair that differ as strings, the fetch fails with the
integrity error, the temporary directory holding the downloaded archive
is discarded, the live library directory is untouched, and no extraction
operation has run — the comparison precedes extraction. -/
theorem digest_mismatch_fatal_before_extraction
    (hash : List Nat → String) (body : String) (size : Nat)
    (chunks : List (List Nat)) (entries : List Entry)
    (exo : ExtractOutcome) (fs : FS)
    (hne : pyStrip body ≠ hash chunks.flatten) :
    (fetchUpdate hash
        ⟨HttpResp.ok body, HttpResp.ok ⟨some size, chunks, entries, exo⟩⟩
        fs).1 = Except.error UErr.hashMismatch ∧
    (fetchUpdate hash
        ⟨HttpResp.ok body, HttpResp.ok ⟨some size, chunks, entries, exo⟩⟩
        fs).2.1.tmpArchive = none ∧
    (fetchUpdate hash
        ⟨HttpResp.ok body, HttpResp.ok ⟨some size, chunks, entries, exo⟩⟩
        fs).2.1.lib = fs.lib ∧
    ∀ es, Op.extract es ∉
      (fetchUpdate hash
        ⟨HttpResp.ok body, HttpResp.ok ⟨some size, chunks, entries, exo⟩⟩
        fs).2.2 := by
  rw [fetchUpdate_ok_ok, if_pos hne]
  refine ⟨rfl, rfl, rfl, ?_⟩
  intro es
  simp

/-- Witness for the amended C3: checksum "x" against digest "h". -/
theorem digest_mismatch_witness :
    (fetchUpdate exHash
        ⟨HttpResp.ok "x", HttpResp.ok ⟨some 1, [[7]], [1], ExtractOutcome.ok⟩⟩
        exFsLive).1 = Except.error UErr.hashMismatch ∧
    (fetchUpdate exHash
        ⟨HttpResp.ok "x", HttpResp.ok ⟨some 1, [[7]], [1], ExtractOutcome.ok⟩⟩
        exFsLive).2.1.tmpArchive = none ∧
    (fetchUpdate exHash
        ⟨HttpResp.ok "x", HttpResp.ok ⟨some 1, [[7]], [1], ExtractOutcome.ok⟩⟩
        exFsLive).2.1.lib = exFsLive.lib ∧
    ∀ es, Op.extract es ∉
      (fetchUpdate exHash
        ⟨HttpResp.ok "x", HttpResp.ok ⟨some 1, [[7]], [1], ExtractOutcome.ok⟩⟩
        exFsLive).2.2 :=
  digest_mismatch_fatal_before_extraction exHash "x" 1 [[7]] [1]
    ExtractOutcome.ok exFsLive (by decide)

/-- C8 (counterexample to the claim as stated): two archive responses
with byte-identical bodies, one carrying a Content-Length header and one
without it, produce different outcomes: the fetch succeeds with the
header but fails with the `TypeError` of `int(meta["Content-Length"])`
(line 197) without it. -/
theorem content_length_absent_changes_outcome :
    (fetchUpdate exHash
        ⟨HttpResp.ok "h", HttpResp.ok ⟨some 1, [[7]], [1], ExtractOutcome.ok⟩⟩
        exFsEmpty).1 = Except.ok () ∧
    (fetchUpdate exHash
        ⟨HttpResp.ok "h", HttpResp.ok ⟨none, [[7]], [1], ExtractOutcome.ok⟩⟩
        exFsEmpty).1 = Except.error UErr.contentLengthTypeError :=
  ⟨rfl, rfl⟩

/-- C8 (amended): when the Content-Length header is present its value
feeds only the progress-bar denominator: for every two archive responses
with identical bodies and different present Content-Length values, the
fetch produces the same outcome and the same final filesystem (the
traces differ only in the recorded `barStart` denominator).  An absent
header, by contrast, aborts the fetch before the download loop. -/
theorem content_length_progress_only (hash : List Nat → String)
    (cs : HttpResp String) (a b : Nat) (chunks : List (List Nat))
    (entries : List Entry) (exo : ExtractOutcome) (fs : FS) :
    (fetchUpdate hash ⟨cs, HttpResp.ok ⟨some a, chunks, entries, exo⟩⟩ fs).1 =
      (fetchUpdate hash ⟨cs, HttpResp.ok ⟨some b, chunks, entries, exo⟩⟩ fs).1 ∧
    (fetchUpdate hash ⟨cs, HttpResp.ok ⟨some a, chunks, entries, exo⟩⟩ fs).2.1 =
      (fetchUpdate hash ⟨cs, HttpResp.ok ⟨some b, chunks, entries, exo⟩⟩ fs).2.1 := by
  cases cs with
  | notFound => exact ⟨rfl, rfl⟩
  | otherError => exact ⟨rfl, rfl⟩
  | ok body =>
    rw [fetchUpdate_ok_ok, fetchUpdate_ok_ok]
    by_cases hne : pyStrip body ≠ hash chunks.flatten
    · rw [if_pos hne, if_pos hne]; exact ⟨rfl, rfl⟩
    · rw [if_neg hne, if_neg hne]; cases exo <;> exact ⟨rfl, rfl⟩

theorem updateRun_eq (hash : List Nat → String) (env : NetEnv) (benv : BinEnv)
    (fs : FS) :
    updateRun hash env benv fs =
      (let out := fetchUpdate hash env (fsPostBackup fs)
       match out.1 with
       | Except.ok _ =>
         let (fsD, trD) :=
           match out.2.1.backup with
           | some _ => (({ out.2.1 with backup := none } : FS), [Op.rmBackup])
           | none => (out.2.1, ([] : List Op))
         let (fsE, trE) := makeBin benv fsD
         (Except.ok (), fsE, preTrace fs ++ out.2.2 ++ trD ++ trE)
       | Except.error e =>
         match out.2.1.backup with
         | none => (Except.error e, out.2.1, preTrace fs ++ out.2.2)
         | some t =>
           match out.2.1.lib with
           | some _ =>
             (Except.error UErr.copyDstExists,
               ({ out.2.1 with backup := none } : FS),
               preTrace fs ++ out.2.2 ++ [Op.rmBackup])
           | none =>
             (Except.error e,
               ({ out.2.1 with lib := some t, backup := none } : FS),
               preTrace fs ++ out.2.2 ++ [Op.restoreCopy t, Op.rmBackup])) := by
  rcases fs with ⟨lib, backup, tmpA, bdm, bp, bpe, bb⟩
  cases backup <;> cases lib <;> rfl

theorem fetchUpdate_bin_rmLib_frame (hash : List Nat → String)
    (env : NetEnv) (fs : FS) :
    ((fetchUpdate hash env fs).2.1.binDirMade = fs.binDirMade ∧
     (fetchUpdate hash env fs).2.1.binPoetry = fs.binPoetry ∧
     (fetchUpdate hash env fs).2.1.binPoetryExec = fs.binPoetryExec ∧
     (fetchUpdate hash env fs).2.1.binBat = fs.binBat) ∧
    ((fetchUpdate hash env fs).2.2.all
        fun o => !opTouchesBin o && !(o == Op.rmLib)) = true := by
  rcases env with ⟨cs, ar⟩
  cases cs with
  | notFound => exact ⟨⟨rfl, rfl, rfl, rfl⟩, rfl⟩
  | otherError => exact ⟨⟨rfl, rfl, rfl, rfl⟩, rfl⟩
  | ok body =>
    cases ar with
    | notFound => exact ⟨⟨rfl, rfl, rfl, rfl⟩, rfl⟩
    | otherError => exact ⟨⟨rfl, rfl, rfl, rfl⟩, rfl⟩
    | ok a =>
      rcases a with ⟨cl, chunks, entries, exo⟩
      cases cl with
      | none => exact ⟨⟨rfl, rfl, rfl, rfl⟩, rfl⟩
      | some size =>
        rw [fetchUpdate_ok_ok]
        by_cases hne : pyStrip body ≠ hash chunks.flatten
        · rw [if_pos hne]; exact ⟨⟨rfl, rfl, rfl, rfl⟩, rfl⟩
        · rw [if_neg hne]; cases exo <;> exact ⟨⟨rfl, rfl, rfl, rfl⟩, rfl⟩

theorem preTrace_no_bin (fs : FS) :
    ((preTrace fs).all fun o => !opTouchesBin o) = true := by
  unfold preTrace
  cases fs.backup <;> cases fs.lib <;> rfl

theorem rmLibAfterBackupOf_true_of_seen (t : Tree) (l : List Op) :
    rmLibAfterBackupOf t l true = true := by
  induction l with
  | nil => rfl
  | cons o l ih => cases o <;> simp [rmLibAfterBackupOf, ih]

/-- C10: whenever the download/verify/extract phase (`_update`) raises,
`update` re-raises before reaching `make_bin` (line 157), so nothing
under the `bin` directory is created or modified: every failing run
leaves the launcher script, its executable bit, the `.bat` wrapper and
the `bin` directory itself exactly as they were, and performs no
bin-directory operation. -/
theorem failed_update_leaves_bin_unchanged
    (hash : List Nat → String) (env : NetEnv) (benv : BinEnv) (fs : FS)
    (e : UErr) (res : Except UErr Unit) (fs' : FS) (tr : List Op)
    (hout : updateRun hash env benv fs = (res, fs', tr))
    (herr : res = Except.error e) :
    fs'.binDirMade = fs.binDirMade ∧ fs'.binPoetry = fs.binPoetry ∧
    fs'.binPoetryExec = fs.binPoetryExec ∧ fs'.binBat = fs.binBat ∧
    (tr.all fun o => !opTouchesBin o) = true := by
  subst herr
  rw [updateRun_eq] at hout
  rcases hF : fetchUpdate hash env (fsPostBackup fs) with ⟨resF, fsC, trC⟩
  rw [hF] at hout
  dsimp only at hout
  obtain ⟨hbin, htrC⟩ := fetchUpdate_bin_rmLib_frame hash env (fsPostBackup fs)
  rw [hF] at hbin htrC
  dsimp only [fsPostBackup] at hbin htrC
  have htrC2 : (trC.all fun o => !opTouchesBin o) = true := by
    rw [List.all_eq_true] at htrC ⊢
    intro o ho
    have h := htrC o ho
    simp only [Bool.and_eq_true] at h
    exact h.1
  have hpre : ((preTrace fs).all fun o => !opTouchesBin o) = true :=
    preTrace_no_bin fs
  cases resF with
  | ok u =>
    exfalso
    cases hCB : fsC.backup <;> rw [hCB] at hout <;> dsimp only at hout
    · rcases hM : makeBin benv fsC with ⟨fsE, trE⟩
      rw [hM] at hout
      dsimp only at hout
      exact absurd (congrArg Prod.fst hout) (by simp)
    · rcases hM : makeBin benv ({ fsC with backup := none } : FS) with ⟨fsE, trE⟩
      rw [hM] at hout
      dsimp only at hout
      exact absurd (congrArg Prod.fst hout) (by simp)
  | error eF =>
    cases hCB : fsC.backup with
    | none =>
      rw [hCB] at hout
      dsimp only at hout
      simp only [Prod.mk.injEq] at hout
      obtain ⟨-, h2, h3⟩ := hout
      subst h2
      subst h3
      refine ⟨hbin.1, hbin.2.1, hbin.2.2.1, hbin.2.2.2, ?_⟩
      simp [List.all_append, hpre, htrC2]
    | some tB =>
      rw [hCB] at hout
      dsimp only at hout
      cases hCL : fsC.lib with
      | some tL =>
        rw [hCL] at hout
        dsimp only at hout
        simp only [Prod.mk.injEq] at hout
        obtain ⟨-, h2, h3⟩ := hout
        subst h2
        subst h3
        refine ⟨hbin.1, hbin.2.1, hbin.2.2.1, hbin.2.2.2, ?_⟩
        rw [List.all_append, List.all_append, hpre, htrC2]
        rfl
      | none =>
        rw [hCL] at hout
        dsimp only at hout
        simp only [Prod.mk.injEq] at hout
        obtain ⟨-, h2, h3⟩ := hout
        subst h2
        subst h3
        refine ⟨hbin.1, hbin.2.1, hbin.2.2.1, hbin.2.2.2, ?_⟩
        rw [List.all_append, List.all_append, hpre, htrC2]
        rfl

/-- Witness for C10: a digest-mismatch failure over a live installation
leaves every `bin` component untouched. -/
theorem failed_update_bin_witness :
    (updateRun exHash ⟨HttpResp.ok "x", HttpResp.ok exArPartial⟩ exBinEnv
        exFsLive).2.1.binDirMade = exFsLive.binDirMade ∧
    (updateRun exHash ⟨HttpResp.ok "x", HttpResp.ok exArPartial⟩ exBinEnv
        exFsLive).2.1.binPoetry = exFsLive.binPoetry ∧
    (updateRun exHash ⟨HttpResp.ok "x", HttpResp.ok exArPartial⟩ exBinEnv
        exFsLive).2.1.binPoetryExec = exFsLive.binPoetryExec ∧
    (updateRun exHash ⟨HttpResp.ok "x", HttpResp.ok exArPartial⟩ exBinEnv
        exFsLive).2.1.binBat = exFsLive.binBat ∧
    ((updateRun exHash ⟨HttpResp.ok "x", HttpResp.ok exArPartial⟩ exBinEnv
        exFsLive).2.2.all fun o => !opTouchesBin o) = true :=
  failed_update_leaves_bin_unchanged exHash
    ⟨HttpResp.ok "x", HttpResp.ok exArPartial⟩ exBinEnv exFsLive
    UErr.hashMismatch _ _ _ rfl rfl

/-- C4: in every run of `update` in which the live library directory
exists, its removal (line 141) is performed only after the backup copy
of its full contents (line 140) has completed: every `rmLib` in the
trace is preceded by a completed `backupCopy` of the pre-update tree. -/
theorem backup_completes_before_live_removal
    (hash : List Nat → String) (env : NetEnv) (benv : BinEnv) (fs : FS)
    (t : Tree) (hlib : fs.lib = some t) :
    rmLibAfterBackupOf t (updateRun hash env benv fs).2.2 false = true := by
  rw [updateRun_eq]
  rcases hF : fetchUpdate hash env (fsPostBackup fs) with ⟨resF, fsC, trC⟩
  dsimp only
  have key : ∀ X : List Op, rmLibAfterBackupOf t (preTrace fs ++ X) false = true := by
    intro X
    unfold preTrace
    rw [hlib]
    cases fs.backup <;>
      simp [rmLibAfterBackupOf, rmLibAfterBackupOf_true_of_seen]
  cases resF with
  | ok u =>
    cases hCB : fsC.backup <;> dsimp only
    · rcases hM : makeBin benv fsC with ⟨fsE, trE⟩
      dsimp only
      simp only [List.append_assoc]
      exact key _
    · rcases hM : makeBin benv ({ fsC with backup := none } : FS) with ⟨fsE, trE⟩
      dsimp only
      simp only [List.append_assoc]
      exact key _
  | error eF =>
    cases hCB : fsC.backup with
    | none => exact key _
    | some tB =>
      dsimp only
      cases hCL : fsC.lib <;> dsimp only <;> simp only [List.append_assoc] <;>
        exact key _

/-- Witness for C4: the partial-extraction run over a live installation
still performs the backup copy of `[0]` before removing `lib`. -/
theorem backup_before_removal_witness :
    rmLibAfterBackupOf [0]
      (updateRun exHash exEnvPartial exBinEnv exFsLive).2.2 false = true :=
  backup_completes_before_live_removal exHash exEnvPartial exBinEnv
    exFsLive [0] rfl

/-- C1 (the code violates the spec's swap invariant): when extraction
fails after partially populating `lib` (here entry 1 of the new tree
`[1, 2]` was written), the restoration `copytree(lib_backup, lib)` of
line 149 raises `FileExistsError` because `lib` already exists, the
`finally` block then deletes the backup, and `update` returns with the
live library directory partially populated — neither the original tree
`[0]` nor the new tree — and no backup left to recover from. -/
theorem halfway_extraction_breaks_swap_invariant :
    (updateRun exHash exEnvPartial exBinEnv exFsLive).1 =
      Except.error UErr.copyDstExists ∧
    exFsLive.lib = some [0] ∧
    exArPartial.entries = [1, 2] ∧
    (updateRun exHash exEnvPartial exBinEnv exFsLive).2.1.lib = some [1] ∧
    (updateRun exHash exEnvPartial exBinEnv exFsLive).2.1.lib ≠ exFsLive.lib ∧
    (updateRun exHash exEnvPartial exBinEnv exFsLive).2.1.lib ≠
      some exArPartial.entries ∧
    (updateRun exHash exEnvPartial exBinEnv exFsLive).2.1.backup = none :=
  ⟨rfl, rfl, rfl, rfl, by decide, by decide, rfl⟩

end PoetryUpdate
